import Mathlib

/-!
Verification development for the checkpoint-tree viewer
(`CheckpointTreeViewer.tsx`): a shallow embedding of its duration
classifier, input normalization, tree-view rendering and expand/collapse
state machine, together with theorems about the embedded definitions.

Modelling conventions:
* JS strings are Lean `String`s; `String.includes` is substring search
  (`jsIncludes`), `String.replace` with a string pattern removes the first
  occurrence only (`replaceFirstStr`).
* JS numbers are modelled as `ℚ`; the JS value `NaN` is modelled by
  `Option.none` (every `NaN >= c` comparison is false, which the embedding
  mirrors by matching on `none`).
* `parseFloat` is modelled by `jsParseFloat`: skip leading whitespace,
  optional sign, then the longest decimal literal prefix
  (digits, optional fraction, optional exponent); no parsable prefix
  gives `none` (JS `NaN`).  The `Infinity` literal and values outside the
  double range are not exercised by this program and are not modelled.
-/

namespace MinaTrace

/-- Is `p` a prefix of `l` (on characters)? -/
def isPrefixL : List Char → List Char → Bool
  | [], _ => true
  | _ :: _, [] => false
  | a :: as, b :: bs => a = b && isPrefixL as bs

/-- Is `p` a contiguous substring of `l`?  Models `String.prototype.includes`. -/
def isSubL (p : List Char) : List Char → Bool
  | [] => isPrefixL p []
  | c :: rest => isPrefixL p (c :: rest) || isSubL p rest

/-- JS `s.includes(sub)`. -/
def jsIncludes (s sub : String) : Bool :=
  isSubL sub.data s.data

/-- Remove the first occurrence of `pat` from `l`; if `pat` does not occur,
return `l` unchanged.  Models JS `str.replace(pat, '')` with a plain string
pattern, which replaces only the first occurrence. -/
def replaceFirstL (pat : List Char) : List Char → List Char
  | [] => []
  | c :: rest =>
    if isPrefixL pat (c :: rest) then (c :: rest).drop pat.length
    else c :: replaceFirstL pat rest

/-- JS `s.replace(pat, '')` on strings. -/
def replaceFirstStr (s pat : String) : String :=
  ⟨replaceFirstL pat.data s.data⟩

/-- Scanner state machine implementing removal of every match of the regex
`<[^>]*>` (the source's `durationStr.replace(/<[^>]*>/g, '')`).  The second
argument is `none` outside a candidate tag and `some buf` while inside one,
`buf` holding the consumed characters in reverse (starting at the opening
`<`); a candidate that never meets a `>` is emitted verbatim at the end of
the input, exactly as the regex leaves an unclosed `<...` untouched. -/
def stripAux : List Char → Option (List Char) → List Char
  | [], none => []
  | [], some buf => buf.reverse
  | c :: rest, none =>
    if c = '<' then stripAux rest (some [c]) else c :: stripAux rest none
  | c :: rest, some buf =>
    if c = '>' then stripAux rest none else stripAux rest (some (c :: buf))

/-- Remove all HTML tags: JS `s.replace(/<[^>]*>/g, '')`. -/
def stripTags (cs : List Char) : List Char :=
  stripAux cs none

/-- String version of `stripTags`. -/
def stripTagsStr (s : String) : String :=
  ⟨stripTags s.data⟩

/-- Numeric value of a single decimal digit character (0 for anything
else; callers only pass characters accepted by `Char.isDigit`). -/
def digitVal (c : Char) : ℕ :=
  if c = '0' then 0 else if c = '1' then 1 else if c = '2' then 2
  else if c = '3' then 3 else if c = '4' then 4 else if c = '5' then 5
  else if c = '6' then 6 else if c = '7' then 7 else if c = '8' then 8
  else if c = '9' then 9 else 0

/-- Numeric value of a list of decimal digit characters (most significant
first); an empty list gives 0. -/
def digitsVal (cs : List Char) : ℕ :=
  cs.foldl (fun acc c => 10 * acc + digitVal c) 0

/-- Split off the longest leading run of decimal digits. -/
def takeDigits : List Char → List Char × List Char
  | [] => ([], [])
  | c :: cs =>
    if c.isDigit then
      let p := takeDigits cs
      (c :: p.1, p.2)
    else ([], c :: cs)

/-- Parse the longest decimal-mantissa prefix `digits [. digits]`; at least
one digit must appear on one side of the dot, else `none` (JS `NaN`).
Returns the value and the unconsumed rest. -/
def parseMantissa (cs : List Char) : Option (ℚ × List Char) :=
  let p1 := takeDigits cs
  match p1.2 with
  | '.' :: r2 =>
    let p2 := takeDigits r2
    if p1.1 = [] && p2.1 = [] then none
    else some ((digitsVal p1.1 : ℚ) + (digitsVal p2.1 : ℚ) / (10 : ℚ) ^ p2.1.length, p2.2)
  | _ => if p1.1 = [] then none else some ((digitsVal p1.1 : ℚ), p1.2)

/-- Parse an optional exponent `e|E [+|-] digits` directly after the
mantissa; an `e` not followed by digits contributes no exponent (JS
`parseFloat` keeps the longest valid literal prefix).  Returns the sign of
the exponent (`true` = negative) and its magnitude. -/
def parseExpPart : List Char → Bool × ℕ
  | c :: rest =>
    if c = 'e' || c = 'E' then
      match rest with
      | s :: rest2 =>
        if s = '+' then
          (false, if (takeDigits rest2).1 = [] then 0 else digitsVal (takeDigits rest2).1)
        else if s = '-' then
          if (takeDigits rest2).1 = [] then (false, 0) else (true, digitsVal (takeDigits rest2).1)
        else (false, if (takeDigits rest).1 = [] then 0 else digitsVal (takeDigits rest).1)
      | [] => (false, 0)
    else (false, 0)
  | [] => (false, 0)

/-- Model of JS `parseFloat`: leading whitespace skipped, optional sign,
longest decimal literal prefix; `none` models `NaN`. -/
def jsParseFloat (s : String) : Option ℚ :=
  let cs := s.data.dropWhile fun c => c.isWhitespace
  let sc : ℚ × List Char :=
    match cs with
    | '+' :: r => (1, r)
    | '-' :: r => (-1, r)
    | _ => (1, cs)
  match parseMantissa sc.2 with
  | none => none
  | some (m, rest) =>
    let e := parseExpPart rest
    some (if e.1 then sc.1 * m / (10 : ℚ) ^ e.2 else sc.1 * m * (10 : ℚ) ^ e.2)

/-- Embedding of the source's `extractTimeInMs` helper: strip HTML tags,
then convert by unit — a string containing `s` but neither `ms` nor `μs`
is seconds (×1000), a string containing `ms` is milliseconds as-is, a
string containing `μs` is microseconds (÷1000), anything else is parsed as
a raw number with `NaN` mapped to 0.  `none` models a `NaN` result (which
the unit branches propagate: in JS `NaN * 1000` is `NaN`). -/
def extractTimeInMs (durationStr : String) : Option ℚ :=
  let timeStr := stripTagsStr durationStr
  if jsIncludes timeStr "s" && !jsIncludes timeStr "ms" && !jsIncludes timeStr "μs" then
    (jsParseFloat timeStr).map fun x => x * 1000
  else if jsIncludes timeStr "ms" then
    jsParseFloat timeStr
  else if jsIncludes timeStr "μs" then
    (jsParseFloat timeStr).map fun x => x / 1000
  else
    some ((jsParseFloat timeStr).getD 0)

/-- Result of `formatDuration`: display text and CSS class. -/
structure Formatted where
  text : String
  className : String
deriving DecidableEq

/-- CSS class used by the source for the error tier. -/
def errClass : String := "text-red-600 font-bold"

/-- CSS class used by the source for the warning tier. -/
def warnClass : String := "text-amber-500 font-bold"

/-- CSS class used by the source for the moderate tier. -/
def orangeClass : String := "text-orange-500 font-bold"

/-- Wrapper tag stripped in the error-marker branch. -/
def errOpenTag : String := "<span class=\"error\">"

/-- Wrapper tag stripped in the warn-marker branch. -/
def warnOpenTag : String := "<span class=\"warn\">"

/-- Wrapper tag stripped in the orange-marker branch. -/
def orangeOpenTag : String := "<span class=\"orange\">"

/-- Closing wrapper tag stripped in every marker branch. -/
def closeTag : String := "</span>"

/-- Embedding of the source's `formatDuration`: falsy input (absent or
empty string) short-circuits to `"0s"`; then the three embedded-marker
substring checks in order `error`, `warn`, `orange`, each stripping the
first occurrence of its exact open tag and of `</span>`; otherwise
threshold classification of `extractTimeInMs`, highest first, with the
text returned unchanged.  A `NaN` magnitude (`none`) fails every `>=`
comparison in JS, landing in the final unstyled branch. -/
def formatDuration : Option String → Formatted
  | none => ⟨"0s", ""⟩
  | some s =>
    if s = "" then ⟨"0s", ""⟩
    else if jsIncludes s "error" then
      ⟨replaceFirstStr (replaceFirstStr s errOpenTag) closeTag, errClass⟩
    else if jsIncludes s "warn" then
      ⟨replaceFirstStr (replaceFirstStr s warnOpenTag) closeTag, warnClass⟩
    else if jsIncludes s "orange" then
      ⟨replaceFirstStr (replaceFirstStr s orangeOpenTag) closeTag, orangeClass⟩
    else
      match extractTimeInMs s with
      | some m =>
        if 1000 ≤ m then ⟨s, errClass⟩
        else if 250 ≤ m then ⟨s, warnClass⟩
        else if 100 ≤ m then ⟨s, orangeClass⟩
        else ⟨s, ""⟩
      | none => ⟨s, ""⟩

/-- `x.toFixed(2)` for non-negative `x`, per `Number.prototype.toFixed`:
the integer `n` closest to `100·x`, ties towards the larger `n`
(i.e. `⌊100·x + 1/2⌋`), printed as `n/100` then a dot then the remainder
padded to two digits.  Values at or above `10^21` (where JS falls back to
exponential notation) do not occur in this program and are not modelled. -/
def toFixed2Pos (x : ℚ) : String :=
  let n : ℕ := (⌊100 * x + 1 / 2⌋).toNat
  toString (n / 100) ++ "." ++
    (if n % 100 < 10 then "0" ++ toString (n % 100) else toString (n % 100))

/-- `x.toFixed(2)`: negative inputs print a leading minus sign before the
rendering of `-x`. -/
def toFixed2 (x : ℚ) : String :=
  if x < 0 then "-" ++ toFixed2Pos (-x) else toFixed2Pos x

/-- Runtime value found in a raw input node's `duration` field: a JS
number, a JS string, or absent. -/
inductive RawDuration where
  | num (q : ℚ)
  | str (s : String)
  | absent
deriving DecidableEq

/-- A raw input node as `processNode` receives it: JSON objects with
optional `title`, `name`, `duration` and `children` fields.  (`title` and
`name` model JS strings-or-undefined; the empty string is the only falsy
string.) -/
inductive RawNode : Type where
  | mk (title : Option String) (name : Option String) (duration : RawDuration)
       (children : Option (List RawNode))

/-- The `title` field of a raw node. -/
def RawNode.title : RawNode → Option String
  | .mk t _ _ _ => t

/-- The `name` field of a raw node. -/
def RawNode.name : RawNode → Option String
  | .mk _ n _ _ => n

/-- The `duration` field of a raw node. -/
def RawNode.duration : RawNode → RawDuration
  | .mk _ _ d _ => d

/-- The `children` field of a raw node. -/
def RawNode.children : RawNode → Option (List RawNode)
  | .mk _ _ _ c => c

mutual

/-- Embedding of the source's `processNode`: a numeric `duration` becomes
`"<toFixed(2)>ms"`; a falsy `name` (absent or empty) is replaced by
`"Unnamed Node"`; `children`, when present as an array, are processed
recursively.  Note the source writes the placeholder into `node.name`,
not `node.title`. -/
def processNode : RawNode → RawNode
  | .mk t nm dur ch =>
    .mk t
      (if nm = none || nm = some "" then some "Unnamed Node" else nm)
      (match dur with
       | .num q => .str (toFixed2 q ++ "ms")
       | d => d)
      (match ch with
       | some cs => some (processList cs)
       | none => none)

/-- `children.map(processNode)`. -/
def processList : List RawNode → List RawNode
  | [] => []
  | n :: ns => processNode n :: processList ns

end

/-- The shapes `JSON.parse` can hand to `handleDisplay`'s
array-or-single-object dispatch (`Array.isArray(data)`). -/
inductive ParsedJson where
  | arr (items : List RawNode)
  | obj (node : RawNode)

/-- The component state touched by `handleDisplay`: the displayed tree,
the error banner flag and message, and the loading flag. -/
structure DisplayState where
  parsedData : List RawNode
  showError : Bool
  errorMessage : String
  loading : Bool

/-- The message `handleDisplay` installs when `JSON.parse` throws. -/
def parseErrorMsg : String :=
  "Error parsing JSON data. Please check your input and try again."

/-- Embedding of the source's `handleDisplay`, parameterized by the result
of `JSON.parse(inputValue)` (`none` models a thrown parse error).  The
source sets `loading` at entry and clears it in `finally`; only the final
state after the handler returns is modelled.  The catch branch is total:
the parse failure is converted to state, never re-thrown. -/
def handleDisplay (parseResult : Option ParsedJson) (s : DisplayState) : DisplayState :=
  match parseResult with
  | some (.arr items) =>
    { parsedData := processList items, showError := false
      errorMessage := s.errorMessage, loading := false }
  | some (.obj n) =>
    { parsedData := [processNode n], showError := false
      errorMessage := s.errorMessage, loading := false }
  | none =>
    { parsedData := [], showError := true
      errorMessage := parseErrorMsg, loading := false }

/-- The source's `TreeItem` interface as it reaches `TreeNode` at runtime:
`title` and `duration` may be absent (runtime objects are not checked),
`children` is an optional array. -/
inductive TreeItem : Type where
  | mk (title : Option String) (duration : Option String)
       (children : Option (List TreeItem))

/-- The `title` field of a tree item. -/
def TreeItem.title : TreeItem → Option String
  | .mk t _ _ => t

/-- The `duration` field of a tree item. -/
def TreeItem.duration : TreeItem → Option String
  | .mk _ d _ => d

/-- The `children` field of a tree item. -/
def TreeItem.children : TreeItem → Option (List TreeItem)
  | .mk _ _ c => c

/-- The source's `hasChildren` test: `item.children && item.children.length > 0`. -/
def hasChildren (item : TreeItem) : Bool :=
  match item.children with
  | some cs => !cs.isEmpty
  | none => false

/-- The observable pieces of one `TreeNode` row as rendered by the source:
whether the expand/collapse arrow is present, whether an `onClick` handler
is attached, the displayed title, the classified duration, and the arrow
rotation (driven by the `expanded` state). -/
structure NodeRow where
  hasToggle : Bool
  clickable : Bool
  title : Option String
  durationText : String
  durationClass : String
  arrowRotated : Bool
deriving DecidableEq

/-- Embedding of `TreeNode`'s row: the arrow div is rendered iff
`hasChildren`, `onClick={hasChildren ? toggleExpand : undefined}` attaches
a handler iff `hasChildren`, the duration cell shows `formatDuration`'s
text and class, and the arrow is rotated iff `expanded`. -/
def renderRow (item : TreeItem) (expanded : Bool) : NodeRow :=
  { hasToggle := hasChildren item
    clickable := hasChildren item
    title := item.title
    durationText := (formatDuration item.duration).text
    durationClass := (formatDuration item.duration).className
    arrowRotated := expanded }

/-- The `expanded` state after a click on the row: the handler
(`toggleExpand`, i.e. `setExpanded(!expanded)`) runs only when the render
attached one; a row without a handler leaves the state untouched. -/
def clickNode (item : TreeItem) (expanded : Bool) : Bool :=
  if (renderRow item expanded).clickable then !expanded else expanded

/-- One constituent of `TreeViewContent`'s output, in document order: the
expand-all toggle button with its label, the loading indicator, the
empty-state indicator, or the list of top-level `TreeNode`s (each created
with `expandAllState` set to the recorded signal value). -/
inductive ViewPart where
  | toggleButton (label : String)
  | loadingIndicator
  | noData
  | nodes (items : List TreeItem) (expandAllState : Bool)

/-- Embedding of the source's `TreeViewContent` JSX: a div containing the
expand-all button (label `"Collapse All"` when `expandAll` else
`"Expand All"`), followed by `isLoading ? Loading : (data && data.length >
0) ? TreeNodes : NoData`.  The button div sits above the conditional, so
it is emitted in every case. -/
def treeViewContent (data : List TreeItem) (isLoading : Bool) (expandAll : Bool) :
    List ViewPart :=
  ViewPart.toggleButton (if expandAll then "Collapse All" else "Expand All") ::
    (if isLoading then [ViewPart.loadingIndicator]
     else if 0 < data.length then [ViewPart.nodes data expandAll]
     else [ViewPart.noData])

/-- Per-instance expansion state of a mounted tree of `TreeNode`s: one
`expanded` boolean per node (the `useState(false)` of each instance),
mirroring the node tree's shape. -/
inductive ExpTree : Type where
  | mk (expanded : Bool) (kids : List ExpTree)

mutual

/-- Effect of the `expandAllState` signal on a (sub)tree of node
instances: each `TreeNode`'s `useEffect(() => setExpanded(expandAllState),
[expandAllState])` overwrites its own state with the signal, and the JSX
passes the identical `expandAllState` prop to every child, so the
overwrite reaches every depth. -/
def syncState : Bool → ExpTree → ExpTree
  | v, .mk _ kids => .mk v (syncKids v kids)

/-- `syncState` over a list of sibling instances. -/
def syncKids : Bool → List ExpTree → List ExpTree
  | _, [] => []
  | v, c :: cs => syncState v c :: syncKids v cs

end

/-- Read the `expanded` flag of the instance at a child-index path. -/
def expandedAt? : List ℕ → ExpTree → Option Bool
  | [], .mk e _ => some e
  | i :: p, .mk _ kids =>
    match kids[i]? with
    | some c => expandedAt? p c
    | none => none

/-- `toggleExpand` at the instance addressed by a child-index path:
`setExpanded(!expanded)` on that one instance, everything else untouched. -/
def toggleAt : List ℕ → ExpTree → ExpTree
  | [], .mk e kids => .mk (!e) kids
  | i :: p, .mk e kids =>
    .mk e (kids.mapIdx fun j c => if j = i then toggleAt p c else c)

/-- `toggleAt` on a forest of top-level instances, addressing root `i`. -/
def toggleRoots (roots : List ExpTree) (i : ℕ) (p : List ℕ) : List ExpTree :=
  roots.mapIdx fun j c => if j = i then toggleAt p c else c

/-- Read the `expanded` flag at root index `r`, path `q`, of a forest. -/
def expandedAtRoots (roots : List ExpTree) (r : ℕ) (q : List ℕ) : Option Bool :=
  match roots[r]? with
  | some t => expandedAt? q t
  | none => none

/-- The UI state relevant to the expand-all broadcast: the tree-wide
`expandAll` boolean owned by the tab component, and the per-instance
expansion states of the mounted top-level trees. -/
structure TreeUIState where
  expandAll : Bool
  roots : List ExpTree

/-- The two user events of the expand/collapse state machine. -/
inductive UIEvent where
  | toggleAll
  | toggleNode (root : ℕ) (path : List ℕ)

/-- One step of the expand/collapse state machine.  `toggleAll` is the
button's `onClick={() => setExpandAll(!expandAll)}`, after which every
mounted `TreeNode`'s effect rewrites its state to the new signal
(`syncKids`).  `toggleNode` is a single instance's `toggleExpand`, which
calls only `setExpanded` — it never calls `setExpandAll`. -/
def uiStep : TreeUIState → UIEvent → TreeUIState
  | ⟨v, roots⟩, .toggleAll => ⟨!v, syncKids (!v) roots⟩
  | ⟨v, roots⟩, .toggleNode i p => ⟨v, toggleRoots roots i p⟩

/-- A four-level chain of collapsed instances, used to exercise the
broadcast at depth 3. -/
def chainState : TreeUIState :=
  ⟨false, [.mk false [.mk false [.mk false [.mk false []]]]]⟩

/-- A childless tree item, used to exercise the leaf behaviour. -/
def leafItem : TreeItem :=
  .mk (some "init_block") (some "52.04ms") none

/-- A tree item with one child, used to exercise the expandable behaviour. -/
def branchItem : TreeItem :=
  .mk (some "block_creation") (some "33.17s") (some [leafItem])

/-- `isPrefixL` decides the prefix relation. -/
theorem isPrefixL_iff (p : List Char) :
    ∀ l : List Char, isPrefixL p l = true ↔ p <+: l := by
  induction p with
  | nil => intro l; simp [isPrefixL]
  | cons a as ih =>
    intro l
    cases l with
    | nil => simp [isPrefixL]
    | cons b bs => simp [isPrefixL, List.cons_prefix_cons, ih bs, and_comm]

/-- `isSubL` decides the contiguous-substring (infix) relation, so
`jsIncludes` is plain substring containment. -/
theorem isSubL_iff (p : List Char) :
    ∀ l : List Char, isSubL p l = true ↔ p <:+: l := by
  intro l
  induction l with
  | nil => simp [isSubL, isPrefixL_iff]
  | cons c rest ih =>
    simp [isSubL, isPrefixL_iff, ih, List.infix_cons_iff]

/-- `syncKids` acts elementwise. -/
theorem syncKids_getElem? (v : Bool) (l : List ExpTree) :
    ∀ i : ℕ, (syncKids v l)[i]? = (l[i]?).map (syncState v) := by
  induction l with
  | nil => intro i; simp [syncKids]
  | cons c cs ih =>
    intro i
    cases i with
    | zero => simp [syncKids]
    | succ j => simpa [syncKids] using ih j

/-- After a broadcast, every reachable instance carries the broadcast
value, at every depth. -/
theorem expandedAt?_syncState (q : List ℕ) :
    ∀ (t : ExpTree) (v b : Bool), expandedAt? q (syncState v t) = some b → b = v := by
  induction q with
  | nil =>
    intro t v b h
    cases t with
    | mk e kids =>
      simp [syncState, expandedAt?] at h
      exact h.symm
  | cons i p ih =>
    intro t v b h
    cases t with
    | mk e kids =>
      simp only [syncState, expandedAt?, syncKids_getElem?] at h
      cases hk : kids[i]? with
      | none => simp [hk] at h
      | some c =>
        simp [hk] at h
        exact ih c v b h

/-- Claim C4 (code bug): for a raw node with no `title`, `processNode`
writes the `"Unnamed Node"` placeholder into the `name` field — which no
renderer reads — and leaves `title` absent (third conjunct: `title` is
never touched for any input), so the rendered label is empty, contrary to
the claim that the title is defaulted. -/
theorem spec_c4_eval :
    (processNode (.mk none none (.str "5ms") none)).title = none ∧
    (processNode (.mk none none (.str "5ms") none)).name = some "Unnamed Node" ∧
    (∀ (t nm : Option String) (d : RawDuration) (ch : Option (List RawNode)),
      (processNode (.mk t nm d ch)).title = t) := by
  refine ⟨by simp [processNode, RawNode.title], by simp [processNode, RawNode.name], ?_⟩
  intro t nm d ch
  simp [processNode, RawNode.title]

/-- Claim C5, counterexample: with the loading flag set (and no data),
`TreeViewContent` still renders the expand-all toggle button — the button
div sits above the loading/empty conditional, so it is not confined to
the non-loading, non-empty branch as claimed. -/
theorem spec_c5_counterexample :
    treeViewContent [] true true
      = [ViewPart.toggleButton "Collapse All", ViewPart.loadingIndicator] := rfl

/-- Claim C5 as amended: `TreeViewContent` always renders the expand-all
toggle button first (labelled `"Collapse All"` when the expand-all flag is
true and `"Expand All"` when false); after the button, the loading flag
takes precedence and yields the loading indicator, an empty item sequence
yields the empty-state indicator, and otherwise one `TreeNode` per
top-level item is rendered, each receiving the current expand-all value. -/
theorem spec_c5 (data : List TreeItem) (l v : Bool) :
    ((treeViewContent data l v).head?
      = some (.toggleButton (if v then "Collapse All" else "Expand All"))) ∧
    (l = true → (treeViewContent data l v).tail = [ViewPart.loadingIndicator]) ∧
    (l = false → data = [] → (treeViewContent data l v).tail = [ViewPart.noData]) ∧
    (l = false → data ≠ [] →
      (treeViewContent data l v).tail = [ViewPart.nodes data v]) := by
  refine ⟨rfl, ?_, ?_, ?_⟩
  · intro hl; simp [treeViewContent, hl]
  · intro hl hd; simp [treeViewContent, hl, hd]
  · intro hl hd
    simp [treeViewContent, hl, List.length_pos.mpr hd]

/-- Witness for C5 at a concrete non-loading, non-empty input. -/
theorem spec_c5_witness :
    ((treeViewContent [leafItem] false false).head?
      = some (.toggleButton "Expand All")) ∧
    (treeViewContent [leafItem] false false).tail
      = [ViewPart.nodes [leafItem] false] := by
  have h := spec_c5 [leafItem] false false
  exact ⟨by simpa using h.1, h.2.2.2 rfl (by simp)⟩

/-- Claim C7: a `TreeItem` with a non-empty children sequence renders the
toggle affordance and click handler and a click flips its expansion
state; with empty or absent children neither affordance nor handler is
rendered and a click leaves the state unchanged — for either value of the
current expansion state (hence regardless of the expand-all signal that
produced it). -/
theorem spec_c7 (item : TreeItem) (e : Bool) :
    ((renderRow item e).hasToggle = hasChildren item) ∧
    ((renderRow item e).clickable = hasChildren item) ∧
    (hasChildren item = true → clickNode item e = !e) ∧
    (hasChildren item = false →
      (renderRow item e).hasToggle = false ∧ (renderRow item e).clickable = false ∧
        clickNode item e = e) ∧
    (hasChildren item = false ↔ item.children = none ∨ item.children = some []) := by
  refine ⟨rfl, rfl, ?_, ?_, ?_⟩
  · intro h; simp [clickNode, renderRow, h]
  · intro h; exact ⟨h, h, by simp [clickNode, renderRow, h]⟩
  · cases item with
    | mk t d ch =>
      cases ch with
      | none => simp [hasChildren, TreeItem.children]
      | some cs => cases cs <;> simp [hasChildren, TreeItem.children]

/-- Witness for C7: the example leaf is inert, the example branch toggles. -/
theorem spec_c7_witness :
    (hasChildren leafItem = false ∧ (renderRow leafItem true).hasToggle = false ∧
      (renderRow leafItem true).clickable = false ∧ clickNode leafItem true = true) ∧
    (hasChildren branchItem = true ∧ clickNode branchItem false = true) := by
  have hl := spec_c7 leafItem true
  have hb := spec_c7 branchItem false
  have hlf : hasChildren leafItem = false := by simp [hasChildren, leafItem, TreeItem.children]
  have hbt : hasChildren branchItem = true := by
    simp [hasChildren, branchItem, TreeItem.children]
  refine ⟨⟨hlf, (hl.2.2.2.1 hlf).1, (hl.2.2.2.1 hlf).2.1, (hl.2.2.2.1 hlf).2.2⟩,
    hbt, ?_⟩
  simpa using hb.2.2.1 hbt

/-- Claim C8: when `JSON.parse` fails on the pasted input, `handleDisplay`
reaches its catch branch and the resulting state has an empty displayed
tree, the error banner raised with the fixed parse-error message, and the
loading flag cleared — for any prior state, so no stale tree survives.
(The embedded handler is a total function: the failure is converted to
state, never re-thrown.) -/
theorem spec_c8 (s : DisplayState) :
    handleDisplay none s
      = { parsedData := [], showError := true
          errorMessage := parseErrorMsg, loading := false } := rfl

/-- Claim C9: normalization turns a numeric `duration` `q` into the string
`toFixed(2)` of `q` with the `ms` suffix; a `duration` that is already a
string is left unchanged; concretely, `12.5` becomes `"12.50ms"`. -/
theorem spec_c9 (t nm : Option String) (q : ℚ) (d : String)
    (ch : Option (List RawNode)) :
    ((processNode (.mk t nm (.num q) ch)).duration = .str (toFixed2 q ++ "ms")) ∧
    ((processNode (.mk t nm (.str d) ch)).duration = .str d) ∧
    ((processNode (.mk t nm (.num 12.5) ch)).duration = .str "12.50ms") := by
  refine ⟨by simp [processNode, RawNode.duration], by simp [processNode, RawNode.duration], ?_⟩
  have h : (⌊(100 : ℚ) * 12.5 + 1 / 2⌋) = 1250 := by norm_num
  simp only [processNode, RawNode.duration, toFixed2, toFixed2Pos, h]
  norm_num
  decide

/-- Claim C1: for a non-empty duration string without any embedded
severity marker, the displayed text is the input string unchanged, and the
class is chosen from the computed magnitude by inclusive lower bounds
evaluated highest first — `≥ 1000` error, `≥ 250` warning, `≥ 100`
moderate, otherwise none (a `NaN` magnitude also yields none).  The
concrete conjuncts check the boundary magnitudes 1000, 250 and 100 land
in the higher tier. -/
theorem spec_c1 (s : String) (m : ℚ) (hne : s ≠ "")
    (he : jsIncludes s "error" = false) (hw : jsIncludes s "warn" = false)
    (ho : jsIncludes s "orange" = false) :
    ((formatDuration (some s)).text = s) ∧
    (extractTimeInMs s = some m →
      (formatDuration (some s)).className =
        if 1000 ≤ m then errClass else if 250 ≤ m then warnClass
        else if 100 ≤ m then orangeClass else "") ∧
    (extractTimeInMs s = none → (formatDuration (some s)).className = "") ∧
    ((formatDuration (some "1000ms")).className = errClass) ∧
    ((formatDuration (some "250ms")).className = warnClass) ∧
    ((formatDuration (some "100ms")).className = orangeClass) ∧
    ((formatDuration (some "99ms")).className = "") := by
  have hfd : formatDuration (some s) =
      (match extractTimeInMs s with
       | some m =>
         if 1000 ≤ m then ⟨s, errClass⟩
         else if 250 ≤ m then ⟨s, warnClass⟩
         else if 100 ≤ m then ⟨s, orangeClass⟩
         else ⟨s, ""⟩
       | none => ⟨s, ""⟩) := by
    simp [formatDuration, hne, he, hw, ho]
  refine ⟨?_, ?_, ?_, ?_, ?_, ?_, ?_⟩
  · rw [hfd]
    cases hx : extractTimeInMs s with
    | none => rfl
    | some m2 => simp only; split_ifs <;> rfl
  · intro hx
    rw [hfd, hx]
    simp only
    split_ifs <;> rfl
  · intro hx
    rw [hfd, hx]
  · norm_num +decide [formatDuration, extractTimeInMs, stripTagsStr, stripTags, stripAux,
      jsIncludes, isSubL, isPrefixL, jsParseFloat, parseMantissa, takeDigits, digitsVal,
      digitVal, parseExpPart]
  · norm_num +decide [formatDuration, extractTimeInMs, stripTagsStr, stripTags, stripAux,
      jsIncludes, isSubL, isPrefixL, jsParseFloat, parseMantissa, takeDigits, digitsVal,
      digitVal, parseExpPart]
  · norm_num +decide [formatDuration, extractTimeInMs, stripTagsStr, stripTags, stripAux,
      jsIncludes, isSubL, isPrefixL, jsParseFloat, parseMantissa, takeDigits, digitsVal,
      digitVal, parseExpPart]
  · norm_num +decide [formatDuration, extractTimeInMs, stripTagsStr, stripTags, stripAux,
      jsIncludes, isSubL, isPrefixL, jsParseFloat, parseMantissa, takeDigits, digitsVal,
      digitVal, parseExpPart]

/-- Witness for C1 at the marker-free input `"300ms"` of magnitude 300. -/
theorem spec_c1_witness :
    (formatDuration (some "300ms")).text = "300ms" ∧
    (formatDuration (some "300ms")).className = warnClass := by
  have hx : extractTimeInMs "300ms" = some 300 := by
    norm_num +decide [extractTimeInMs, stripTagsStr, stripTags, stripAux, jsIncludes,
      isSubL, isPrefixL, jsParseFloat, parseMantissa, takeDigits, digitsVal, digitVal,
      parseExpPart]
  have h := spec_c1 "300ms" 300 (by decide) (by decide) (by decide) (by decide)
  refine ⟨h.1, ?_⟩
  rw [h.2.1 hx]
  norm_num

/-- Claim C2: after tag stripping, unit conversion is: contains `s` but
neither `ms` nor `μs` — parse and multiply by 1000; contains `ms` — parse
as-is; contains `μs` (and not `ms`) — parse and divide by 1000; no
recognized unit — raw parse with an unparsable string giving 0.
Consequently `"1s"`, `"1000ms"` and `"1000000μs"` all have magnitude 1000
and all classify as the error tier, and `"abc"` has magnitude 0. -/
theorem spec_c2 (s : String) :
    (jsIncludes (stripTagsStr s) "s" = true → jsIncludes (stripTagsStr s) "ms" = false →
      jsIncludes (stripTagsStr s) "μs" = false →
      extractTimeInMs s = (jsParseFloat (stripTagsStr s)).map fun x => x * 1000) ∧
    (jsIncludes (stripTagsStr s) "ms" = true →
      extractTimeInMs s = jsParseFloat (stripTagsStr s)) ∧
    (jsIncludes (stripTagsStr s) "ms" = false → jsIncludes (stripTagsStr s) "μs" = true →
      extractTimeInMs s = (jsParseFloat (stripTagsStr s)).map fun x => x / 1000) ∧
    (jsIncludes (stripTagsStr s) "s" = false → jsIncludes (stripTagsStr s) "ms" = false →
      jsIncludes (stripTagsStr s) "μs" = false →
      extractTimeInMs s = some ((jsParseFloat (stripTagsStr s)).getD 0)) ∧
    (extractTimeInMs "1s" = some 1000) ∧
    (extractTimeInMs "1000ms" = some 1000) ∧
    (extractTimeInMs "1000000μs" = some 1000) ∧
    ((formatDuration (some "1s")).className = errClass) ∧
    ((formatDuration (some "1000ms")).className = errClass) ∧
    ((formatDuration (some "1000000μs")).className = errClass) ∧
    (extractTimeInMs "abc" = some 0) := by
  refine ⟨?_, ?_, ?_, ?_, ?_, ?_, ?_, ?_, ?_, ?_, ?_⟩
  · intro h1 h2 h3; simp [extractTimeInMs, h1, h2, h3]
  · intro h2; simp [extractTimeInMs, h2]
  · intro h2 h3; simp [extractTimeInMs, h2, h3]
  · intro h1 h2 h3; simp [extractTimeInMs, h1, h2, h3]
  · norm_num +decide [extractTimeInMs, stripTagsStr, stripTags, stripAux, jsIncludes,
      isSubL, isPrefixL, jsParseFloat, parseMantissa, takeDigits, digitsVal, digitVal,
      parseExpPart]
  · norm_num +decide [extractTimeInMs, stripTagsStr, stripTags, stripAux, jsIncludes,
      isSubL, isPrefixL, jsParseFloat, parseMantissa, takeDigits, digitsVal, digitVal,
      parseExpPart]
  · norm_num +decide [extractTimeInMs, stripTagsStr, stripTags, stripAux, jsIncludes,
      isSubL, isPrefixL, jsParseFloat, parseMantissa, takeDigits, digitsVal, digitVal,
      parseExpPart]
  · norm_num +decide [formatDuration, extractTimeInMs, stripTagsStr, stripTags, stripAux,
      jsIncludes, isSubL, isPrefixL, jsParseFloat, parseMantissa, takeDigits, digitsVal,
      digitVal, parseExpPart]
  · norm_num +decide [formatDuration, extractTimeInMs, stripTagsStr, stripTags, stripAux,
      jsIncludes, isSubL, isPrefixL, jsParseFloat, parseMantissa, takeDigits, digitsVal,
      digitVal, parseExpPart]
  · norm_num +decide [formatDuration, extractTimeInMs, stripTagsStr, stripTags, stripAux,
      jsIncludes, isSubL, isPrefixL, jsParseFloat, parseMantissa, takeDigits, digitsVal,
      digitVal, parseExpPart]
  · norm_num +decide [extractTimeInMs, stripTagsStr, stripTags, stripAux, jsIncludes,
      isSubL, isPrefixL, jsParseFloat, parseMantissa, takeDigits, digitsVal, digitVal,
      parseExpPart]

/-- Witness for C2: the milliseconds branch at `"1000ms"`. -/
theorem spec_c2_witness :
    jsIncludes (stripTagsStr "1000ms") "ms" = true ∧
    extractTimeInMs "1000ms" = jsParseFloat (stripTagsStr "1000ms") := by
  have h : jsIncludes (stripTagsStr "1000ms") "ms" = true := by decide
  exact ⟨h, (spec_c2 "1000ms").2.1 h⟩

/-- Claim C3: a duration string containing an embedded severity marker
short-circuits before any magnitude computation: the exact wrapper tags
are stripped from the displayed text and the class is the marker's tier
(`error`, `warn` and `orange` checked in that order).  Concretely, the
error-tagged `"5ms"` classifies as error while the plain `"5ms"`
(magnitude 5) classifies as none. -/
theorem spec_c3 (s : String) (hne : s ≠ "") :
    (jsIncludes s "error" = true →
      formatDuration (some s)
        = ⟨replaceFirstStr (replaceFirstStr s errOpenTag) closeTag, errClass⟩) ∧
    (jsIncludes s "error" = false → jsIncludes s "warn" = true →
      formatDuration (some s)
        = ⟨replaceFirstStr (replaceFirstStr s warnOpenTag) closeTag, warnClass⟩) ∧
    (jsIncludes s "error" = false → jsIncludes s "warn" = false →
      jsIncludes s "orange" = true →
      formatDuration (some s)
        = ⟨replaceFirstStr (replaceFirstStr s orangeOpenTag) closeTag, orangeClass⟩) ∧
    (formatDuration (some "<span class=\"error\">5ms</span>") = ⟨"5ms", errClass⟩) ∧
    (extractTimeInMs "<span class=\"error\">5ms</span>" = some 5) ∧
    ((formatDuration (some "5ms")).className = "") := by
  refine ⟨?_, ?_, ?_, ?_, ?_, ?_⟩
  · intro h; simp [formatDuration, hne, h]
  · intro he hw; simp [formatDuration, hne, he, hw]
  · intro he hw ho; simp [formatDuration, hne, he, hw, ho]
  · decide
  · norm_num +decide [extractTimeInMs, stripTagsStr, stripTags, stripAux, jsIncludes,
      isSubL, isPrefixL, jsParseFloat, parseMantissa, takeDigits, digitsVal, digitVal,
      parseExpPart]
  · norm_num +decide [formatDuration, extractTimeInMs, stripTagsStr, stripTags, stripAux,
      jsIncludes, isSubL, isPrefixL, jsParseFloat, parseMantissa, takeDigits, digitsVal,
      digitVal, parseExpPart]

/-- Witness for C3: the error-tagged `"5ms"` hits the error branch. -/
theorem spec_c3_witness :
    jsIncludes "<span class=\"error\">5ms</span>" "error" = true ∧
    formatDuration (some "<span class=\"error\">5ms</span>")
      = ⟨replaceFirstStr
          (replaceFirstStr "<span class=\"error\">5ms</span>" errOpenTag) closeTag,
         errClass⟩ := by
  have h : jsIncludes "<span class=\"error\">5ms</span>" "error" = true := by decide
  exact ⟨h, (spec_c3 "<span class=\"error\">5ms</span>" (by decide)).1 h⟩

/-- Claim C6: a `toggleAll` event flips the tree-wide signal and, in the
resulting state, every reachable node instance — at any root and any
depth, whatever its previous state — carries the new signal value; a
`toggleNode` event on any single node never changes the tree-wide
signal. -/
theorem spec_c6 (s : TreeUIState) (r : ℕ) (q : List ℕ) (b : Bool) (i : ℕ)
    (p : List ℕ) :
    ((uiStep s .toggleAll).expandAll = !s.expandAll) ∧
    (expandedAtRoots (uiStep s .toggleAll).roots r q = some b → b = !s.expandAll) ∧
    ((uiStep s (.toggleNode i p)).expandAll = s.expandAll) := by
  cases s with
  | mk v roots =>
    refine ⟨rfl, ?_, rfl⟩
    intro h
    simp only [uiStep, expandedAtRoots, syncKids_getElem?] at h
    cases hr : roots[r]? with
    | none => simp [hr] at h
    | some t =>
      simp [hr] at h
      exact expandedAt?_syncState q t (!v) b h

/-- Witness for C6: broadcasting on the four-level chain reaches depth 3. -/
theorem spec_c6_witness :
    expandedAtRoots (uiStep chainState .toggleAll).roots 0 [0, 0, 0] = some true ∧
    true = !chainState.expandAll ∧
    (uiStep chainState (.toggleNode 0 [])).expandAll = chainState.expandAll := by
  have hx : expandedAtRoots (uiStep chainState .toggleAll).roots 0 [0, 0, 0]
      = some true := by
    simp [chainState, uiStep, expandedAtRoots, expandedAt?, syncState, syncKids]
  have h := spec_c6 chainState 0 [0, 0, 0] true 0 []
  exact ⟨hx, h.2.1 hx, h.2.2⟩

/-- Claim C10 (implicit behaviour): marker detection is plain substring
containment (`jsIncludes` decides the infix relation) on the duration
string, checked in the fixed order `error`, `warn`, `orange`, and only the
exact wrapper texts are stripped (first occurrence each).  Concretely,
`"terrorize"` classifies as error with its text unchanged, and
`"warn orange"` classifies as warning. -/
theorem spec_c10 (s sub : String) (hne : s ≠ "") :
    (jsIncludes s sub = true ↔ sub.data <:+: s.data) ∧
    (jsIncludes s "error" = true →
      formatDuration (some s)
        = ⟨replaceFirstStr (replaceFirstStr s errOpenTag) closeTag, errClass⟩) ∧
    (jsIncludes s "error" = false → jsIncludes s "warn" = true →
      formatDuration (some s)
        = ⟨replaceFirstStr (replaceFirstStr s warnOpenTag) closeTag, warnClass⟩) ∧
    (jsIncludes s "error" = false → jsIncludes s "warn" = false →
      jsIncludes s "orange" = true →
      formatDuration (some s)
        = ⟨replaceFirstStr (replaceFirstStr s orangeOpenTag) closeTag, orangeClass⟩) ∧
    (formatDuration (some "terrorize") = ⟨"terrorize", errClass⟩) ∧
    (formatDuration (some "warn orange") = ⟨"warn orange", warnClass⟩) := by
  refine ⟨isSubL_iff sub.data s.data, ?_, ?_, ?_, ?_, ?_⟩
  · intro h; simp [formatDuration, hne, h]
  · intro he hw; simp [formatDuration, hne, he, hw]
  · intro he hw ho; simp [formatDuration, hne, he, hw, ho]
  · decide
  · decide

/-- Witness for C10: `"error"` occurs inside the word `"terrorize"`, so
the whole string classifies as the error tier without wrapper syntax. -/
theorem spec_c10_witness :
    ("error".data <:+: "terrorize".data) ∧
    formatDuration (some "terrorize")
      = ⟨replaceFirstStr (replaceFirstStr "terrorize" errOpenTag) closeTag,
         errClass⟩ := by
  have h := spec_c10 "terrorize" "error" (by decide)
  exact ⟨h.1.mp (by decide), h.2.1 (by decide)⟩

end MinaTrace
